import Mathlib

/-!
# A shallow embedding of `equgrad.py`

This file embeds the symbolic-algebra module `equgrad.py` (classes
`Number`, `Symbol`, `SumType`, `ProductType`, `QuotientType`, `PowType`
with methods `simplify`, `factor`, `evaluate`, and the arithmetic dunder
methods) and proves properties of the embedded code.

Modelling choices, stated once here:

* Python floats are idealised as exact rationals (`ℚ`).  None of the
  properties proved below depends on rounding.  The one numeric operation
  whose exact value `ℚ` cannot represent — `x ** y` for non-integer `y`,
  whose Python result is an irrational float or a complex number — is
  modelled by the opaque value `PyVal.floatUnknown`; no theorem in this
  file depends on that value, and arithmetic on it is modelled as
  producing `floatUnknown` again (such results are treated as nonzero when
  a division checks its denominator).
* The source is dynamically typed, and several of its methods leak
  non-`AlgebraicObject` values: every composite `simplify` falls off the
  end of the method body and returns Python `None`, and `evaluate` can
  return raw numbers or freshly built object trees.  The value domain
  `PyVal` therefore contains the six `AlgebraicObject` node kinds
  *plus* `PyNone` (Python `None`) and `num` (a raw Python int/float).
* Raised Python exceptions are modelled with `Except`/`PyErr`.  The
  source defines only the `InvalidSymbolName` exception class; `KeyError`,
  `TypeError`, `ZeroDivisionError` and `AttributeError` are the builtin
  exceptions its code can raise.  No `DivisionByZero`, `DomainError` or
  `UndefinedSymbol` class exists anywhere in the source.
* `SumType.simplify` contains a `while True:` loop that mutates the list
  it iterates over; it can in principle loop forever, so `simplify`
  returns a `PyOutcome` with an explicit divergence case `div`, assigned
  exactly when the Python loop would not exit (see `flattenWhile`).
* Expressions are modelled as trees; distinct occurrences of a node are
  distinct Python objects (no aliasing).  This matters only for the dict
  `like_terms` in `SumType.simplify`, which uses objects of classes
  without `__eq__`/`__hash__` as keys, i.e. identity hashing: without
  aliasing, no `Symbol` key is ever hit twice, the dict is built without
  raising, and its contents are discarded when the method falls off the
  end.
-/

namespace Equgrad

/-- Python exception classes raisable by the embedded code.
`invalidSymbolName` models the source's `InvalidSymbolName`; the rest are
Python builtins. -/
inductive PyErr where
  | keyError
  | typeError
  | zeroDivisionError
  | attributeError
  | invalidSymbolName
deriving DecidableEq

/-- Python runtime values flowing through the embedded code: the six
`AlgebraicObject` node kinds of the source (`Number`, `Symbol`, `SumType`,
`ProductType`, `QuotientType`, `PowType`), Python `None` (`PyNone`),
raw Python numbers (`num`), and the opaque non-rational float/complex
result of `**` (`floatUnknown`, see the file header). -/
inductive PyVal where
  | PyNone
  | num (x : ℚ)
  | floatUnknown
  | Number (value : ℚ)
  | Symbol (name : String)
  | SumType (values : List PyVal)
  | ProductType (values : List PyVal)
  | QuotientType (a b : PyVal)
  | PowType (a b : PyVal)

/-- Outcome of running a piece of Python code that contains a loop:
it can return a value, raise an exception, or diverge. -/
inductive PyOutcome (α : Type) where
  | ok (a : α)
  | exn (e : PyErr)
  | div

/-- `true` unless the outcome is divergence. -/
def PyOutcome.halts {α : Type} : PyOutcome α → Bool
  | .div => false
  | _ => true

/-- Python `x + y` as dispatched on the runtime type of `x`:
`Number.__add__` and `Symbol.__add__` build `SumType([self, other])`;
the four composite classes inherit `AlgebraicObject.__add__`, whose body
is the bare `...` expression, so they return `None`; raw numbers add
numerically, and any other combination has no applicable
`__add__`/`__radd__`, so Python raises `TypeError`. -/
def pyAdd : PyVal → PyVal → Except PyErr PyVal
  | .Number v, y => .ok (.SumType [.Number v, y])
  | .Symbol s, y => .ok (.SumType [.Symbol s, y])
  | .SumType _, _ => .ok .PyNone
  | .ProductType _, _ => .ok .PyNone
  | .QuotientType _ _, _ => .ok .PyNone
  | .PowType _ _, _ => .ok .PyNone
  | .num x, .num y => .ok (.num (x + y))
  | .num _, .floatUnknown => .ok .floatUnknown
  | .num _, _ => .error .typeError
  | .floatUnknown, .num _ => .ok .floatUnknown
  | .floatUnknown, .floatUnknown => .ok .floatUnknown
  | .floatUnknown, _ => .error .typeError
  | .PyNone, _ => .error .typeError

/-- Python `x / y`: `Number.__truediv__` and `Symbol.__truediv__` build
`QuotientType(self, other)`; the composite classes inherit the `...` body
and return `None`; raw numeric division raises `ZeroDivisionError` on a
zero divisor; other combinations raise `TypeError`. -/
def pyDiv : PyVal → PyVal → Except PyErr PyVal
  | .Number v, y => .ok (.QuotientType (.Number v) y)
  | .Symbol s, y => .ok (.QuotientType (.Symbol s) y)
  | .SumType _, _ => .ok .PyNone
  | .ProductType _, _ => .ok .PyNone
  | .QuotientType _ _, _ => .ok .PyNone
  | .PowType _ _, _ => .ok .PyNone
  | .num x, .num y => if y = 0 then .error .zeroDivisionError else .ok (.num (x / y))
  | .num _, .floatUnknown => .ok .floatUnknown
  | .num _, _ => .error .typeError
  | .floatUnknown, .num y => if y = 0 then .error .zeroDivisionError else .ok .floatUnknown
  | .floatUnknown, .floatUnknown => .ok .floatUnknown
  | .floatUnknown, _ => .error .typeError
  | .PyNone, _ => .error .typeError

/-- Python `x ** y` on raw numbers: an integer exponent gives an exact
rational power (with `ZeroDivisionError` for `0 ** negative`); a
non-integer exponent gives an irrational float (base `≥ 0`) or a complex
number (base `< 0`), both modelled by the opaque `floatUnknown`. -/
def numPow (x y : ℚ) : Except PyErr PyVal :=
  if y.den = 1 then
    if x = 0 ∧ y.num < 0 then .error .zeroDivisionError
    else .ok (.num (x ^ y.num))
  else .ok .floatUnknown

/-- Python `x ** y`: `Number.__pow__` and `Symbol.__pow__` build
`PowType(self, other)`; the composite classes inherit the `...` body and
return `None`; raw numbers use `numPow`; other combinations raise
`TypeError`. -/
def pyPow : PyVal → PyVal → Except PyErr PyVal
  | .Number v, y => .ok (.PowType (.Number v) y)
  | .Symbol s, y => .ok (.PowType (.Symbol s) y)
  | .SumType _, _ => .ok .PyNone
  | .ProductType _, _ => .ok .PyNone
  | .QuotientType _ _, _ => .ok .PyNone
  | .PowType _ _, _ => .ok .PyNone
  | .num x, .num y => numPow x y
  | .num _, .floatUnknown => .ok .floatUnknown
  | .num _, _ => .error .typeError
  | .floatUnknown, .num _ => .ok .floatUnknown
  | .floatUnknown, .floatUnknown => .ok .floatUnknown
  | .floatUnknown, _ => .error .typeError
  | .PyNone, _ => .error .typeError

/-- Variable bindings: the `symbols` dict mapping a symbol name to its
float value, modelled as an association list. -/
def Bindings : Type := List (String × ℚ)

mutual

/-- The `evaluate` methods of the source, one match arm per class:
`Number.evaluate` is `return self` (the node itself, not its float
value); `Symbol.evaluate` is `return symbols[self.name]` (`KeyError` when
the name is unbound); `SumType.evaluate` and `ProductType.evaluate` share
the identical loop body `value = 0; for value in self.values: value +=
value.evaluate(symbols); return value` (see `evalLoop`);
`QuotientType.evaluate` is `return self.a.evaluate(symbols) /
self.b.evaluate(symbols)` and `PowType.evaluate` the same with `**`.
Calling `.evaluate` on `None` or a raw number raises `AttributeError`. -/
def evaluate : PyVal → Bindings → Except PyErr PyVal
  | .PyNone, _ => .error .attributeError
  | .num _, _ => .error .attributeError
  | .floatUnknown, _ => .error .attributeError
  | .Number v, _ => .ok (.Number v)
  | .Symbol s, b =>
      match List.lookup s b with
      | some x => .ok (.num x)
      | none => .error .keyError
  | .SumType vs, b => evalLoop b (.num 0) vs
  | .ProductType vs, b => evalLoop b (.num 0) vs
  | .QuotientType a b, bnd =>
      match evaluate a bnd with
      | .error e => .error e
      | .ok ra =>
          match evaluate b bnd with
          | .error e => .error e
          | .ok rb => pyDiv ra rb
  | .PowType a b, bnd =>
      match evaluate a bnd with
      | .error e => .error e
      | .ok ra =>
          match evaluate b bnd with
          | .error e => .error e
          | .ok rb => pyPow ra rb
termination_by e _ => sizeOf e

/-- The loop `value = 0; for value in values: value +=
value.evaluate(symbols); return value` shared verbatim by
`SumType.evaluate` and `ProductType.evaluate`.  The loop variable
shadows the accumulator: each iteration rebinds `value` to the current
element, evaluates it, and computes `element + element.evaluate(symbols)`
via `pyAdd`; only the last iteration's result (or the initial `0` for an
empty list) is returned, but every iteration runs, so exceptions
propagate in source order. -/
def evalLoop (b : Bindings) (value : PyVal) : List PyVal → Except PyErr PyVal
  | [] => .ok value
  | v :: rest =>
      match evaluate v b with
      | .error e => .error e
      | .ok r =>
          match pyAdd v r with
          | .error e => .error e
          | .ok s => evalLoop b s rest
termination_by l => sizeOf l

end

/-- The `factor` methods of the source: every one of the six classes
implements `factor` as `return self`; `None` and raw numbers have no
`factor` attribute. -/
def factor : PyVal → Except PyErr PyVal
  | .PyNone => .error .attributeError
  | .num _ => .error .attributeError
  | .floatUnknown => .error .attributeError
  | .Number v => .ok (.Number v)
  | .Symbol s => .ok (.Symbol s)
  | .SumType vs => .ok (.SumType vs)
  | .ProductType vs => .ok (.ProductType vs)
  | .QuotientType a b => .ok (.QuotientType a b)
  | .PowType a b => .ok (.PowType a b)

/-- `type(value) == SumType`. -/
def isSumObj : PyVal → Bool
  | .SumType _ => true
  | _ => false

/-- Whether a Python value is a raw number (an `int`/`float`, including
the opaque `floatUnknown`), as opposed to `None` or an
`AlgebraicObject` instance. -/
def isRawNum : PyVal → Bool
  | .num _ => true
  | .floatUnknown => true
  | _ => false

theorem sizeOf_list_append (l₁ l₂ : List PyVal) :
    sizeOf (l₁ ++ l₂) + 1 = sizeOf l₁ + sizeOf l₂ := by
  induction l₁ with
  | nil => simp; omega
  | cons v rest ih => simp; omega

/-- One execution of the `for value in combined_values:` statement of
`SumType.simplify`, which appends `value.values` to the very list being
iterated whenever `value` is a `SumType` (the `new_combined_values =
combined_values` line aliases, not copies, the list).  Python list
iteration proceeds by index into the growing list, so the items appended
at the end are themselves visited in order; the `SumType` node itself is
never removed.  The result is the final contents of the list. -/
def flattenPass : List PyVal → List PyVal
  | [] => []
  | .SumType vs :: rest => .SumType vs :: flattenPass (rest ++ vs)
  | v :: rest => v :: flattenPass rest
termination_by l => sizeOf l
decreasing_by
  all_goals simp_wf
  all_goals
    have hap := sizeOf_list_append rest vs
    simp at hap ⊢
    omega

/-- The `while True:` loop of `SumType.simplify`.  One pass of the body
is `flattenPass`; afterwards the loop breaks iff no `SumType` remains in
the list.  Because the expansion never removes a `SumType` element (it
only appends its children after it), a `SumType` present in the list
stays present after every pass, so if the break check fails once it
fails forever and the loop diverges. -/
def flattenWhile (l : List PyVal) : PyOutcome (List PyVal) :=
  let l' := flattenPass l
  if l'.any isSumObj then .div else .ok l'

mutual

/-- The `simplify` methods of the source, one match arm per class:
`Number.simplify` and `Symbol.simplify` are `return self`.
`SumType.simplify` first simplifies each element (`simplifyList`), then
runs the flattening `while True:` loop (`flattenWhile`), then builds the
`like_terms` dict — whose contents are never returned (see the file
header on identity hashing) — and finally falls off the end of the
method body, returning `None`.  `ProductType.simplify` simplifies each
element and falls off the end (its remaining body is a bare local
annotation, which Python does not evaluate).  `QuotientType.simplify`
and `PowType.simplify` have no executable body at all and return `None`
immediately.  `None` and raw numbers have no `simplify` attribute. -/
def simplify : PyVal → PyOutcome PyVal
  | .PyNone => .exn .attributeError
  | .num _ => .exn .attributeError
  | .floatUnknown => .exn .attributeError
  | .Number v => .ok (.Number v)
  | .Symbol s => .ok (.Symbol s)
  | .SumType vs =>
      match simplifyList vs with
      | .exn e => .exn e
      | .div => .div
      | .ok simplified =>
          match flattenWhile simplified with
          | .exn e => .exn e
          | .div => .div
          | .ok _combined => .ok .PyNone
  | .ProductType vs =>
      match simplifyList vs with
      | .exn e => .exn e
      | .div => .div
      | .ok _ => .ok .PyNone
  | .QuotientType _ _ => .ok .PyNone
  | .PowType _ _ => .ok .PyNone
termination_by e => sizeOf e

/-- The list comprehension-style loop `simplified_values = []; for value
in self.values: simplified_values.append(value.simplify())`: each
element is simplified left to right and the first raised exception
propagates. -/
def simplifyList : List PyVal → PyOutcome (List PyVal)
  | [] => .ok []
  | v :: rest =>
      match simplify v with
      | .exn e => .exn e
      | .div => .div
      | .ok v' =>
          match simplifyList rest with
          | .exn e => .exn e
          | .div => .div
          | .ok rest' => .ok (v' :: rest')
termination_by l => sizeOf l

end

/-- `string.ascii_letters`, as imported by the source. -/
def ascii_letters : String := "abcdefghijklmnopqrstuvwxyzABCDEFGHIJKLMNOPQRSTUVWXYZ"

/-- Whether the character list `s` starts with `sub`. -/
def startsWithChars : List Char → List Char → Bool
  | [], _ => true
  | _ :: _, [] => false
  | a :: as, b :: bs => a == b && startsWithChars as bs

/-- Python `sub in s` on strings: substring containment of `sub`
anywhere in `s`. -/
def pyInStr (sub : List Char) : List Char → Bool
  | [] => startsWithChars sub []
  | c :: rest => startsWithChars sub (c :: rest) || pyInStr sub rest

/-- `Symbol.__init__`: `if len(name) != 1 or not name in ascii_letters:
raise InvalidSymbolName`, then `self.name = name`.  Python `in` on
strings is substring containment; the `or` short-circuits, so the
containment test only runs on names of length 1. -/
def Symbol.init (name : String) : Except PyErr PyVal :=
  if name.length ≠ 1 ∨ ¬ pyInStr name.toList ascii_letters.toList then
    .error .invalidSymbolName
  else .ok (.Symbol name)

/-- Spec-side predicate, following the spec's words: an ASCII letter in
a–z or A–Z, i.e. a character with codepoint in 97–122 or 65–90. -/
def isAsciiLetterSpec (c : Char) : Bool :=
  (97 ≤ c.toNat && c.toNat ≤ 122) || (65 ≤ c.toNat && c.toNat ≤ 90)

/-- Spec-side predicate: a string that is exactly one ASCII letter. -/
def isOneAsciiLetter (name : String) : Bool :=
  name.length == 1 && name.toList.all isAsciiLetterSpec

theorem pyInStr_single (c : Char) (l : List Char) :
    pyInStr [c] l = l.contains c := by
  induction l with
  | nil => rfl
  | cons b bs ih =>
      simp [pyInStr, startsWithChars, ih, List.contains_cons]
      by_cases h : c = b <;> simp [h]

theorem mem_ascii_letters_iff (c : Char) :
    c ∈ ascii_letters.data ↔ isAsciiLetterSpec c = true := by
  constructor
  · intro h
    fin_cases h <;> decide
  · intro h
    simp only [isAsciiLetterSpec, Bool.or_eq_true, Bool.and_eq_true,
      decide_eq_true_eq] at h
    rw [← Char.ofNat_toNat c]
    rcases h with ⟨h₁, h₂⟩ | ⟨h₁, h₂⟩ <;>
      (generalize c.toNat = n at h₁ h₂; interval_cases n <;> decide)

/-- Invariant satisfied by every `simplify` result: the call halts, and
a returned value is never a `SumType` node (composites simplify to
`None`, leaves to themselves). -/
def simpResultOk : PyOutcome PyVal → Prop
  | .ok v => isSumObj v = false
  | .exn _ => True
  | .div => False

/-- List version of `simpResultOk`, for `simplifyList`. -/
def simpListResultOk : PyOutcome (List PyVal) → Prop
  | .ok vs => ∀ v ∈ vs, isSumObj v = false
  | .exn _ => True
  | .div => False

theorem flattenPass_of_noSum (l : List PyVal)
    (h : ∀ v ∈ l, isSumObj v = false) : flattenPass l = l := by
  induction l with
  | nil => simp [flattenPass]
  | cons v rest ih =>
      have hv := h v (by simp)
      have hrest : ∀ v ∈ rest, isSumObj v = false := fun w hw => h w (by simp [hw])
      cases v <;> simp_all [flattenPass, isSumObj]

theorem flattenWhile_of_noSum (l : List PyVal)
    (h : ∀ v ∈ l, isSumObj v = false) : flattenWhile l = .ok l := by
  have hp := flattenPass_of_noSum l h
  have : l.any isSumObj = false := by
    rw [List.any_eq_false]
    intro v hv
    simp [h v hv]
  simp [flattenWhile, hp, this]

theorem simplify_invariant (n : ℕ) :
    (∀ e : PyVal, sizeOf e ≤ n → simpResultOk (simplify e)) ∧
    (∀ l : List PyVal, sizeOf l ≤ n → simpListResultOk (simplifyList l)) := by
  induction n using Nat.strong_induction_on with
  | _ n ih =>
    constructor
    · intro e he
      match e with
      | .PyNone => simp [simplify, simpResultOk]
      | .num x => simp [simplify, simpResultOk]
      | .floatUnknown => simp [simplify, simpResultOk]
      | .Number v => simp [simplify, simpResultOk, isSumObj]
      | .Symbol s => simp [simplify, simpResultOk, isSumObj]
      | .SumType vs =>
          have hsz : sizeOf vs < n := by
            have : sizeOf (PyVal.SumType vs) = 1 + sizeOf vs := by simp
            omega
          have hlist := (ih (sizeOf vs) hsz).2 vs le_rfl
          cases hl : simplifyList vs with
          | exn e => simp [simplify, hl, simpResultOk]
          | div => rw [hl] at hlist; exact absurd hlist (by simp [simpListResultOk])
          | ok simplified =>
              rw [hl] at hlist
              have hflat := flattenWhile_of_noSum simplified hlist
              simp [simplify, hl, hflat, simpResultOk, isSumObj]
      | .ProductType vs =>
          have hsz : sizeOf vs < n := by
            have : sizeOf (PyVal.ProductType vs) = 1 + sizeOf vs := by simp
            omega
          have hlist := (ih (sizeOf vs) hsz).2 vs le_rfl
          cases hl : simplifyList vs with
          | exn e => simp [simplify, hl, simpResultOk]
          | div => rw [hl] at hlist; exact absurd hlist (by simp [simpListResultOk])
          | ok simplified => simp [simplify, hl, simpResultOk, isSumObj]
      | .QuotientType a b => simp [simplify, simpResultOk, isSumObj]
      | .PowType a b => simp [simplify, simpResultOk, isSumObj]
    · intro l hl
      match l with
      | [] => simp [simplifyList, simpListResultOk]
      | v :: rest =>
          have hv : sizeOf v < n := by
            have : sizeOf (v :: rest) = 1 + sizeOf v + sizeOf rest := by simp
            omega
          have hrest : sizeOf rest < n := by
            have : sizeOf (v :: rest) = 1 + sizeOf v + sizeOf rest := by simp
            have hpos : 0 < sizeOf v := by cases v <;> simp
            omega
          have h₁ := (ih (sizeOf v) hv).1 v le_rfl
          have h₂ := (ih (sizeOf rest) hrest).2 rest le_rfl
          cases hsv : simplify v with
          | exn e => simp [simplifyList, hsv, simpListResultOk]
          | div => rw [hsv] at h₁; exact absurd h₁ (by simp [simpResultOk])
          | ok v' =>
              rw [hsv] at h₁
              cases hsl : simplifyList rest with
              | exn e => simp [simplifyList, hsv, hsl, simpListResultOk]
              | div => rw [hsl] at h₂; exact absurd h₂ (by simp [simpListResultOk])
              | ok rest' =>
                  rw [hsl] at h₂
                  simp only [simplifyList, hsv, hsl, simpListResultOk]
                  intro w hw
                  rcases List.mem_cons.mp hw with hw | hw
                  · exact hw ▸ h₁
                  · exact h₂ w hw

/-- **C1.**  The spec claims `simplify` returns a canonical expression
and is idempotent.  The code contradicts this: `SumType.simplify` falls
off the end of the method body, so `simplify(Sum([Constant(1)]))` is the
Python value `None` — not an expression, hence not a canonical tree —
and applying `simplify` to that result raises `AttributeError` instead
of returning it unchanged. -/
theorem c1_simplify_not_idempotent :
    simplify (.SumType [.Number 1]) = .ok .PyNone ∧
    simplify .PyNone = .exn .attributeError := by
  constructor
  · simp [simplify, simplifyList, flattenWhile, flattenPass, isSumObj]
  · simp [simplify]

/-- **C2.**  The spec claims `evaluate(e,b) == evaluate(simplify(e),b)
== evaluate(factor(e),b)`.  The code contradicts it at
`e = Sum([Constant(2), Constant(3)])`, `b = {}`: plain `evaluate`
returns the freshly built node `Sum([Constant(3), Constant(3)])` (a
tree, not the number `5`), `simplify(e)` is Python `None`, and
evaluating `None` raises `AttributeError`. -/
theorem c2_value_preservation_fails :
    evaluate (.SumType [.Number 2, .Number 3]) [] =
      .ok (.SumType [.Number 3, .Number 3]) ∧
    simplify (.SumType [.Number 2, .Number 3]) = .ok .PyNone ∧
    evaluate .PyNone [] = .error .attributeError := by
  refine ⟨?_, ?_, ?_⟩
  · simp [evaluate, evalLoop, pyAdd]
  · simp [simplify, simplifyList, flattenWhile, flattenPass, isSumObj]
  · simp [evaluate]

/-- **C3.**  `simplify` terminates on every value.  (The `while True:`
flattening loop of `SumType.simplify` would diverge if a `SumType` were
present in the list it scans — the loop only ever appends children after
a nested `SumType` without removing it — but that situation is
unreachable: elements are simplified first, and a simplified value is
never a `SumType`, so the loop always breaks after its first pass.) -/
theorem c3_simplify_terminates : ∀ e : PyVal, (simplify e).halts = true := by
  intro e
  have h := (simplify_invariant (sizeOf e)).1 e le_rfl
  cases hs : simplify e with
  | ok v => simp [PyOutcome.halts]
  | exn er => simp [PyOutcome.halts]
  | div => rw [hs] at h; exact absurd h (by simp [simpResultOk])

/-- **C4.**  The spec claims `evaluate(Constant(c), b)` returns the real
number `c`.  The code's `Number.evaluate` is `return self`: it returns
the `Number` node itself (for every constant and every bindings map),
which is an expression object, not a raw number. -/
theorem c4_constant_evaluate_returns_node :
    (∀ c : ℚ, ∀ b : Bindings, evaluate (.Number c) b = .ok (.Number c)) ∧
    (∀ c : ℚ, isRawNum (.Number c) = false) := by
  constructor
  · intro c b; simp [evaluate]
  · intro c; rfl

/-- **C5.**  The spec claims `Product` evaluates to the arithmetic
product of its factors, `1` when empty.  The code's
`ProductType.evaluate` reuses the summing loop of `SumType.evaluate`
verbatim: the empty product evaluates to `0`, and
`Product([Constant(2), Constant(3)])` evaluates to the freshly built
node `Sum([Constant(3), Constant(3)])` instead of `6`. -/
theorem c5_product_evaluate_wrong :
    evaluate (.ProductType []) [] = .ok (.num 0) ∧
    evaluate (.ProductType [.Number 2, .Number 3]) [] =
      .ok (.SumType [.Number 3, .Number 3]) := by
  constructor
  · simp [evaluate, evalLoop]
  · simp [evaluate, evalLoop, pyAdd]

/-- **C6.**  The spec claims `Sum` evaluates to the arithmetic sum of
its terms (`0` when empty; the empty case does hold).  For a non-empty
sum the loop variable of `for value in self.values: value += ...`
shadows the accumulator, so `Sum([Constant(1), Constant(2)])` evaluates
to the freshly built node `Sum([Constant(2), Constant(2)])` — an
expression object, not the number `3`. -/
theorem c6_sum_evaluate_wrong :
    evaluate (.SumType []) [] = .ok (.num 0) ∧
    evaluate (.SumType [.Number 1, .Number 2]) [] =
      .ok (.SumType [.Number 2, .Number 2]) ∧
    isRawNum (.SumType [.Number 2, .Number 2]) = false := by
  refine ⟨?_, ?_, ?_⟩
  · simp [evaluate, evalLoop]
  · simp [evaluate, evalLoop, pyAdd]
  · rfl

/-- **C7.**  The spec claims `evaluate(Quotient(Constant(1),
Constant(0)), {})` fails with `DivisionByZero`.  No `DivisionByZero`
class exists in the source, and no exception is raised at all:
`Number.evaluate` returns the nodes themselves, so the division
dispatches to `Number.__truediv__`, which builds and returns the node
`Quotient(Constant(1), Constant(0))`. -/
theorem c7_quotient_division_by_zero_not_raised :
    evaluate (.QuotientType (.Number 1) (.Number 0)) [] =
      .ok (.QuotientType (.Number 1) (.Number 0)) := by
  simp [evaluate, pyDiv]

/-- **C8.**  The spec claims `evaluate(Power(Constant(-1),
Constant(0.5)), {})` fails with `DomainError`.  No `DomainError` class
exists in the source, and no exception is raised at all:
`Number.evaluate` returns the nodes themselves, so `**` dispatches to
`Number.__pow__`, which builds and returns the node
`Power(Constant(-1), Constant(0.5))`. -/
theorem c8_power_domain_error_not_raised :
    evaluate (.PowType (.Number (-1)) (.Number (1/2))) [] =
      .ok (.PowType (.Number (-1)) (.Number (1/2))) := by
  simp [evaluate, pyPow]

/-- **C9.**  `Symbol.__init__` raises `InvalidSymbolName` exactly when
the name is not a single ASCII letter (a–z or A–Z), succeeds on every
single-letter name, and in particular rejects `"xy"` and `"1"` and
accepts `"x"`. -/
theorem c9_symbol_name_validation :
    (∀ name : String,
      (Symbol.init name = .error .invalidSymbolName ↔
        isOneAsciiLetter name = false) ∧
      (Symbol.init name = .ok (.Symbol name) ↔
        isOneAsciiLetter name = true)) ∧
    Symbol.init "xy" = .error .invalidSymbolName ∧
    Symbol.init "1" = .error .invalidSymbolName ∧
    Symbol.init "x" = .ok (.Symbol "x") := by
  refine ⟨?_, ?_, ?_, ?_⟩
  · intro name
    by_cases hlen : name.length = 1
    · obtain ⟨c, hc⟩ : ∃ c, name.toList = [c] := by
        have h1 : name.toList.length = 1 := hlen
        exact List.length_eq_one.mp h1
      have hd : name.data = [c] := hc
      have hsub : pyInStr name.data ascii_letters.data =
          isAsciiLetterSpec c := by
        rw [hd, pyInStr_single]
        by_cases hmem : c ∈ ascii_letters.data
        · simp [hmem, (mem_ascii_letters_iff c).mp hmem]
        · have hna : isAsciiLetterSpec c = false := by
            have : ¬ isAsciiLetterSpec c = true :=
              fun h => hmem ((mem_ascii_letters_iff c).mpr h)
            simpa using this
          simp [hmem, hna]
      have hone : isOneAsciiLetter name = isAsciiLetterSpec c := by
        simp [isOneAsciiLetter, hlen, hd]
      by_cases hspec : isAsciiLetterSpec c = true
      · simp [Symbol.init, hlen, hsub, hspec, hone]
      · have hf : isAsciiLetterSpec c = false := by simpa using hspec
        simp [Symbol.init, hlen, hsub, hf, hone]
    · have hone : isOneAsciiLetter name = false := by
        simp [isOneAsciiLetter, hlen]
      simp [Symbol.init, hlen, hone]
  · rfl
  · rfl
  · rfl

/-- **C10.**  Every `factor` method of the source is `return self`:
`factor` is the structural identity on each of the six node kinds,
performing no GCF extraction on sums and no recursion into operands. -/
theorem c10_factor_is_identity :
    (∀ v : ℚ, factor (.Number v) = .ok (.Number v)) ∧
    (∀ s : String, factor (.Symbol s) = .ok (.Symbol s)) ∧
    (∀ vs : List PyVal, factor (.SumType vs) = .ok (.SumType vs)) ∧
    (∀ vs : List PyVal, factor (.ProductType vs) = .ok (.ProductType vs)) ∧
    (∀ a b : PyVal, factor (.QuotientType a b) = .ok (.QuotientType a b)) ∧
    (∀ a b : PyVal, factor (.PowType a b) = .ok (.PowType a b)) :=
  ⟨fun _ => rfl, fun _ => rfl, fun _ => rfl, fun _ => rfl,
   fun _ _ => rfl, fun _ _ => rfl⟩

end Equgrad
